import Mathlib

/-!
Verification of the jolly-okurb Discord bot core (`internal/bot/bot.go`,
`internal/bot/session.go`, `internal/config/config.go`) against its
natural-language specification.

Modelling conventions:
* Go strings are modelled as `String` / `List Char` (rune sequences); the byte
  vs rune distinction is immaterial for the ASCII search patterns used here.
* The `Session` interface is a record of pure response functions; `error`
  results are `Except String` / `Option String` (`none` = nil error).
* Functions that issue Session calls also return the list of calls they made,
  mirroring the order of the Go statements.
* The unbounded `for` loops (reactor pagination, history backfill) take a fuel
  argument bounding the number of iterations; any fuel at least the number of
  pages actually served reproduces the Go behaviour.
* Timestamps (`time.Time`) are modelled as natural numbers ordered like the
  real timestamps; dates are encoded as `yyyymmdd` numerals.
-/

/-- Models Go `strings.HasPrefix` on rune lists: `isPrefixL pat l` is true iff
`pat` is an initial segment of `l`. -/
def isPrefixL : List Char → List Char → Bool
  | [], _ => true
  | _ :: _, [] => false
  | a :: as, b :: bs => a = b && isPrefixL as bs

/-- Models Go `strings.Contains` on rune lists: `containsSub hay pat` is true
iff `pat` occurs contiguously in `hay`. -/
def containsSub (hay pat : List Char) : Bool :=
  match hay with
  | [] => isPrefixL pat []
  | _ :: t => isPrefixL pat hay || containsSub t pat

/-- Models Go `strings.ToLower` applied rune-wise. Only ASCII letters matter
for the skull patterns searched in this development; Go's full Unicode simple
case mapping agrees with `Char.toLower` on ASCII. -/
def toLowerL (l : List Char) : List Char := l.map Char.toLower

/-- Models Go `strings.ReplaceAll s pat empty` for a one-rune pattern `p`:
every occurrence of `p` is removed. -/
def removeChar (p : Char) : List Char → List Char
  | [] => []
  | c :: rest => if c = p then removeChar p rest else c :: removeChar p rest

/-- Models Go `strings.ReplaceAll s pat empty` for a two-rune pattern `p q`:
non-overlapping occurrences are removed left to right, exactly as Go's
left-to-right scan does. -/
def removePair (p q : Char) : List Char → List Char
  | [] => []
  | [c] => [c]
  | c :: d :: rest =>
    if c = p ∧ d = q then removePair p q rest
    else c :: removePair p q (d :: rest)

/-- Models Go `strings.Split s sep` for a one-rune separator: the segments
between occurrences of `sep`, empty segments preserved, `[[]]` for the empty
string. -/
def splitOnChar (sep : Char) : List Char → List (List Char)
  | [] => [[]]
  | c :: rest =>
    if c = sep then [] :: splitOnChar sep rest
    else
      match splitOnChar sep rest with
      | [] => [[c]]
      | p :: ps => (c :: p) :: ps

/-- Search pattern literal for the skull substring check (bot.go:590). -/
def skullPat : List Char := "skull".data

/-- Search pattern literal for the jollyskull exclusion check (bot.go:594). -/
def jollyPat : List Char := "jollyskull".data

/-- EmojiDescriptor: the Name and ID fields of `discordgo.Emoji` used by the
bot; an empty `id` means a standard unicode emoji. -/
structure Emoji where
  name : String
  id : String
deriving DecidableEq

/-- Embeds `IsSkullEmoji` (bot.go:583-598). The Go receiver `b *Bot` is unused
there, so this is a plain function. -/
def IsSkullEmoji (emoji : Emoji) : Bool :=
  if emoji.name = "💀" || emoji.name = "☠️" || emoji.name = "☠" then true
  else
    let name := toLowerL emoji.name.data
    if !containsSub name skullPat then false
    else if containsSub name jollyPat then false
    else true

/-- Embeds `GetEmojiAPIString` (bot.go:602-607): custom emoji (non-empty id)
encode as `name:id`, unicode emoji as the name itself. -/
def GetEmojiAPIString (emoji : Emoji) : String :=
  if emoji.id ≠ "" then emoji.name ++ ":" ++ emoji.id
  else emoji.name

/-- Embeds `isSkullCustomEmoji` (bot.go:412-419): split the tag on `:`; fewer
than two fields means no embedded name (false); otherwise the lower-cased
second field must contain `skull` and not contain `jollyskull`. -/
def isSkullCustomEmoji (emojiTag : String) : Bool :=
  match splitOnChar ':' emojiTag.data with
  | _ :: p1 :: _ =>
    let name := toLowerL p1
    containsSub name skullPat && !containsSub name jollyPat
  | _ => false

/-- Embeds the loop of `filterCustomEmojis` (bot.go:380-408) as a one-pass
scan. The Go loop repeatedly locates the next `<`, copies the text before it,
locates the first `>` after it (copying the rest verbatim if there is none),
and drops or keeps the delimited tag according to `shouldRemove`. Here `none`
is the state "outside a tag" and `some buf` carries the runes of the tag
opened by the last unmatched `<`, in reverse order. -/
def scanEmojis (shouldRemove : String → Bool) : Option (List Char) → List Char → List Char
  | none, [] => []
  | some buf, [] => buf.reverse
  | none, c :: rest =>
    if c = '<' then scanEmojis shouldRemove (some [c]) rest
    else c :: scanEmojis shouldRemove none rest
  | some buf, c :: rest =>
    if c = '>' then
      let tag := (c :: buf).reverse
      (if shouldRemove (String.mk tag) then [] else tag) ++ scanEmojis shouldRemove none rest
    else scanEmojis shouldRemove (some (c :: buf)) rest

/-- Embeds `filterCustomEmojis` (bot.go:380-408). -/
def filterCustomEmojis (content : String) (shouldRemove : String → Bool) : String :=
  String.mk (scanEmojis shouldRemove none content.data)

/-- Variation selector U+FE0F, the second rune of the glyph `☠️`. -/
def vs16 : Char := '\uFE0F'

/-- Embeds `IsSkullOnlyMessage` (bot.go:358-376). The Go receiver is unused.
The three whitespace `ReplaceAll`s, the emptiness check, the three skull-glyph
`ReplaceAll`s (`💀`, then the two-rune `☠️`, then `☠`) and the custom-emoji
filter are performed in the Go order. -/
def IsSkullOnlyMessage (content : String) : Bool :=
  let c := removeChar ' ' content.data
  let c := removeChar '\n' c
  let c := removeChar '\t' c
  if c.isEmpty then false
  else
    let c := removeChar '💀' c
    let c := removePair '☠' vs16 c
    let c := removeChar '☠' c
    filterCustomEmojis (String.mk c) isSkullCustomEmoji = ""

/-- Embeds the fields of `config.Config` (config.go) consumed by the bot core.
`Token` and the raw `TargetUserIDs` slice are unused by `internal/bot` and
omitted; the `TargetUserIDSet` map is modelled as a list queried by
membership. -/
structure Config where
  GuildID : String
  ChannelName : String
  TargetUserIDSet : List String
  JollySkullID : String

/-- Embeds the `Bot` struct (bot.go:260-266). The `sync.RWMutex` and the
`context.CancelFunc` are concurrency plumbing with no sequential content; the
cancellation signal is passed explicitly to the backfill loop instead. -/
structure BotState where
  config : Config
  channelID : String
  ready : Bool

/-- Embeds `IsTargetUser` (bot.go:576-579): membership in the configured
target-user set. -/
def IsTargetUser (b : BotState) (userID : String) : Bool :=
  b.config.TargetUserIDSet.contains userID

/-- Models `discordgo.User`: only the ID field is read by the bot. -/
structure User where
  id : String
deriving DecidableEq

/-- Models `discordgo.Channel`: the fields read by `FindChannelByName`.
`channelType` models the Go `Type` field, an integer enum. -/
structure Channel where
  id : String
  name : String
  channelType : Nat
deriving DecidableEq

/-- Models `discordgo.ChannelTypeGuildText` (value 0 of the Go enum). -/
def ChannelTypeGuildText : Nat := 0

/-- Models `discordgo.MessageReactions` entries: only the emoji is read. -/
structure Reaction where
  emoji : Emoji
deriving DecidableEq

/-- Models `discordgo.Message` (also used for MessageCreate events, which
embed a Message): the fields read by the bot. The timestamp is a natural
number ordered like the real `time.Time`. -/
structure Message where
  id : String
  channelID : String
  author : Option User
  content : String
  timestamp : Nat
  reactions : List Reaction
deriving DecidableEq

/-- Models the `MessageReactionAdd` event fields read by the bot. -/
structure ReactionAddEvent where
  channelID : String
  messageID : String
  userID : String
  emoji : Emoji
deriving DecidableEq

/-- Embeds the `Session` interface (session.go:6-12) as a record of pure
response functions; a Go `nil` error is `none` / `Except.ok`. Argument order
follows the Go signatures. -/
structure Session where
  guildChannels : String → Except String (List Channel)
  channelMessages : String → Nat → String → String → String → Except String (List Message)
  messageReactions : String → String → String → Nat → String → String → Except String (List User)
  messageReactionRemove : String → String → String → String → Option String
  messageReactionAdd : String → String → String → Option String

/-- Record of one Session call issued by the bot, with the arguments passed.
`addReaction` has no user field because `Session.MessageReactionAdd`
(session.go:11) takes none. -/
inductive APICall where
  | removeReaction (channelID messageID emojiStr userID : String)
  | addReaction (channelID messageID emojiStr : String)
  | reactionsPage (channelID messageID emojiStr : String) (limit : Nat) (beforeID afterID : String)
  | fetchMessages (channelID : String) (limit : Nat) (beforeID afterID aroundID : String)
deriving DecidableEq

/-- Embeds `ReplaceReaction` (bot.go:548-564), also returning the Session
calls it issues in order: remove the (message, emoji, user) reaction; on
failure return false without calling add; otherwise add the configured
jollyskull reaction and return whether that succeeded. -/
def ReplaceReaction (b : BotState) (s : Session) (messageID userID : String) (emoji : Emoji) :
    Bool × List APICall :=
  let emojiStr := GetEmojiAPIString emoji
  let removeCall := APICall.removeReaction b.channelID messageID emojiStr userID
  match s.messageReactionRemove b.channelID messageID emojiStr userID with
  | some _ => (false, [removeCall])
  | none =>
    let addCall := APICall.addReaction b.channelID messageID b.config.JollySkullID
    match s.messageReactionAdd b.channelID messageID b.config.JollySkullID with
    | some _ => (false, [removeCall, addCall])
    | none => (true, [removeCall, addCall])

/-- ID of the last user of a page, the value Go takes as
`users[len(users)-1].ID`; the empty-list fallback is never reached because the
caller checks the page is non-empty. -/
def lastUserID (users : List User) : String :=
  match users.getLast? with
  | some u => u.id
  | none => ""

/-- Embeds the loop of `findTargetUsersWithReaction` (bot.go:522-546), with
the emoji already encoded, plus the list of pagination calls issued. `fuel`
bounds the number of pages fetched (the Go loop is unbounded); any fuel at
least the number of pages the session serves reproduces the Go behaviour.
Each iteration fetches up to 100 reactors after `afterID`, returns the
accumulated IDs on error or an empty page, appends the target users of the
page, stops after a short page, and otherwise continues after the page's last
user ID. -/
def findTargetUsersLoop (b : BotState) (s : Session) (messageID emojiStr : String) :
    Nat → String → List String → List String × List APICall
  | 0, _, found => (found, [])
  | fuel + 1, afterID, found =>
    let call := APICall.reactionsPage b.channelID messageID emojiStr 100 "" afterID
    match s.messageReactions b.channelID messageID emojiStr 100 "" afterID with
    | .error _ => (found, [call])
    | .ok users =>
      if users.isEmpty then (found, [call])
      else
        let found := found ++ (users.filter (fun u => IsTargetUser b u.id)).map User.id
        if users.length < 100 then (found, [call])
        else
          let res := findTargetUsersLoop b s messageID emojiStr fuel (lastUserID users) found
          (res.1, call :: res.2)

/-- Embeds `findTargetUsersWithReaction` (bot.go:517-546). -/
def findTargetUsersWithReaction (b : BotState) (s : Session) (fuel : Nat)
    (messageID : String) (emoji : Emoji) : List String × List APICall :=
  findTargetUsersLoop b s messageID (GetEmojiAPIString emoji) fuel "" []

/-- Embeds `ProcessMessageReactions` (bot.go:496-513): for each reaction
summary whose emoji is skull-class, find the target users that applied it and
count the successful replacements. `fuel` is passed to the pagination loop. -/
def ProcessMessageReactions (b : BotState) (s : Session) (fuel : Nat) (msg : Message) : Nat :=
  msg.reactions.foldl
    (fun replaced reaction =>
      if !IsSkullEmoji reaction.emoji then replaced
      else
        let targetUsers := (findTargetUsersWithReaction b s fuel msg.id reaction.emoji).1
        targetUsers.foldl
          (fun r userID =>
            if (ReplaceReaction b s msg.id userID reaction.emoji).1 then r + 1 else r)
          replaced)
    0

/-- Embeds `FindChannelByName` (bot.go:566-573): the ID of the first channel
with the requested name and guild-text type, or the empty string. -/
def FindChannelByName (channels : List Channel) (name : String) : String :=
  match channels with
  | [] => ""
  | ch :: rest =>
    if ch.name = name ∧ ch.channelType = ChannelTypeGuildText then ch.id
    else FindChannelByName rest name

/-- Initialization failure cases of `Initialize` (bot.go:273-291), which Go
reports as wrapped `error` values. -/
inductive InitError where
  | fetchChannelsFailed (msg : String)
  | channelNotFound (channelName : String)
deriving DecidableEq

/-- Embeds `Initialize` (bot.go:273-291): fetch the guild channels, resolve
the configured channel name, and only on success publish `channelID` and flip
`ready`; on any failure the state is returned unchanged. -/
def Initialize (b : BotState) (s : Session) : BotState × Option InitError :=
  match s.guildChannels b.config.GuildID with
  | .error e => (b, some (.fetchChannelsFailed e))
  | .ok channels =>
    let channelID := FindChannelByName channels b.config.ChannelName
    if channelID = "" then (b, some (.channelNotFound b.config.ChannelName))
    else ({ b with channelID := channelID, ready := true }, none)

/-- Embeds `ShouldProcessReaction` (bot.go:421-440): the bot must be ready,
the event must be in the resolved channel, from a target user, with a
skull-class emoji. -/
def ShouldProcessReaction (b : BotState) (r : ReactionAddEvent) : Bool :=
  if !b.ready then false
  else if r.channelID ≠ b.channelID then false
  else if !IsTargetUser b r.userID then false
  else if !IsSkullEmoji r.emoji then false
  else true

/-- Embeds `ShouldDeleteMessage` (bot.go:339-355): the bot must be ready, the
message must be in the resolved channel, its author non-nil and a target
user, and its content skull-only. -/
def ShouldDeleteMessage (b : BotState) (m : Message) : Bool :=
  if !b.ready then false
  else if m.channelID ≠ b.channelID then false
  else
    match m.author with
    | none => false
    | some a =>
      if !IsTargetUser b a.id then false
      else IsSkullOnlyMessage m.content

/-- Models the parsed `HistoricalCutoff` constant `2025-01-01T00:00:00Z`
(bot.go:257, parsed at bot.go:443). `time.Parse` of this fixed literal always
succeeds, so the error branch at bot.go:444-447 is dead code and is not
modelled. Timestamps are `yyyymmdd` numerals, ordered like the real dates. -/
def HistoricalCutoffTS : Nat := 20250101

/-- Terminal states of the backfill loop (bot.go:454-494): cancellation,
reaching a message older than the cutoff, an empty page, a fetch error, or
running out of model fuel (the Go loop has no such bound). -/
inductive BackfillEnd where
  | cancelled
  | cutoffReached
  | exhausted
  | fetchError
  | fuelOut
deriving DecidableEq

/-- Observable events of one backfill run, in program order: each loop-top
cancellation check (with the value observed), each `ChannelMessages` fetch
(with the before-cursor passed), and each message reconciled. -/
inductive BEvent where
  | cancelCheck (signalled : Bool)
  | fetchPage (beforeID : String)
  | processMsg (id : String) (timestamp : Nat)
deriving DecidableEq

/-- Outcome of reconciling one fetched page (the inner loop bot.go:472-481):
either a message older than the cutoff was hit (processing stops with the
counts reached so far) or the page completed. -/
inductive PageOutcome where
  | cutoffHit (processed replaced : Nat)
  | completed (processed replaced : Nat)
deriving DecidableEq

/-- Embeds the inner page loop of `ProcessHistoricalMessages`
(bot.go:472-481): messages are scanned in page order; at the first message
with timestamp before the cutoff the function returns immediately; otherwise
the message is reconciled, the replaced count added and the processed count
incremented. Also returns the `processMsg` events emitted. -/
def processPage (b : BotState) (s : Session) (rfuel cutoff : Nat) :
    List Message → Nat → Nat → PageOutcome × List BEvent
  | [], processed, replaced => (.completed processed replaced, [])
  | msg :: rest, processed, replaced =>
    if msg.timestamp < cutoff then (.cutoffHit processed replaced, [])
    else
      let count := ProcessMessageReactions b s rfuel msg
      let res := processPage b s rfuel cutoff rest (processed + 1) (replaced + count)
      (res.1, BEvent.processMsg msg.id msg.timestamp :: res.2)

/-- ID of the last message of a page, the value Go takes as
`messages[len(messages)-1].ID` (bot.go:483); the fallback is never reached
because the page was checked non-empty. -/
def lastMessageID (messages : List Message) : String :=
  match messages.getLast? with
  | some m => m.id
  | none => ""

/-- Embeds the outer loop of `ProcessHistoricalMessages` (bot.go:454-494).
`cancelled i` models whether `ctx.Done()` is closed when iteration `i`
performs its loop-top select; `fuel` bounds the number of iterations (the Go
loop is unbounded), `rfuel` is the pagination fuel for reconciliation. Each
iteration: check cancellation (stop with the accumulated counts if
signalled); fetch up to 100 messages before `beforeID` (a fetch error or an
empty page terminates the loop); reconcile the page in order, stopping for
good at the first message older than the cutoff; then continue before the
page's last message ID. The progress log and the 500 ms sleep
(bot.go:485-490) have no observable state and are not modelled. -/
def backfillLoop (b : BotState) (s : Session) (cancelled : Nat → Bool) (rfuel cutoff : Nat) :
    Nat → Nat → String → Nat → Nat → (BackfillEnd × Nat × Nat) × List BEvent
  | 0, _, _, processed, replaced => ((.fuelOut, processed, replaced), [])
  | fuel + 1, iter, beforeID, processed, replaced =>
    if cancelled iter then ((.cancelled, processed, replaced), [BEvent.cancelCheck true])
    else
      let evts0 := [BEvent.cancelCheck false, BEvent.fetchPage beforeID]
      match s.channelMessages b.channelID 100 beforeID "" "" with
      | .error _ => ((.fetchError, processed, replaced), evts0)
      | .ok messages =>
        if messages.isEmpty then ((.exhausted, processed, replaced), evts0)
        else
          match processPage b s rfuel cutoff messages processed replaced with
          | (.cutoffHit p r, pevts) => ((.cutoffReached, p, r), evts0 ++ pevts)
          | (.completed p r, pevts) =>
            let res := backfillLoop b s cancelled rfuel cutoff fuel (iter + 1)
              (lastMessageID messages) p r
            (res.1, evts0 ++ pevts ++ res.2)

/-- Embeds `ProcessHistoricalMessages` (bot.go:442-494): run the backfill
loop from the most recent messages with zero counts. -/
def ProcessHistoricalMessages (b : BotState) (s : Session) (cancelled : Nat → Bool)
    (rfuel fuel : Nat) : (BackfillEnd × Nat × Nat) × List BEvent :=
  backfillLoop b s cancelled rfuel HistoricalCutoffTS fuel 0 "" 0 0

/-- Reference classification of skull-only content, written from the spec
text (spec §4.1): drop every space, tab and newline character; if nothing
remains the message never qualifies; strip the unicode skull glyphs; remove
each custom-emoji tag whose embedded name satisfies the skull-but-not-
jollyskull rule, keeping every other tag and all remaining text verbatim;
qualify iff nothing remains. -/
def SpecIsSkullOnlyContent (text : String) : Bool :=
  let kept := text.data.filter (fun ch => decide (ch ≠ ' ' ∧ ch ≠ '\n' ∧ ch ≠ '\t'))
  if kept.isEmpty then false
  else
    let stripped := removeChar '☠' (removePair '☠' vs16 (removeChar '💀' kept))
    (scanEmojis isSkullCustomEmoji none stripped).isEmpty

/-- Case-insensitive containment, from the spec (§4.1): the lower-cased name
contains the (already lower-case) pattern. -/
def containsCI (s : String) (pat : List Char) : Prop :=
  containsSub (toLowerL s.data) pat = true

/-- Channel-selection predicate from the spec (§4.3): the name matches
exactly and the channel type is guild text. -/
def isWantedChannel (name : String) (ch : Channel) : Bool :=
  ch.name = name && ch.channelType = ChannelTypeGuildText

/-- Reactor list positioned after the user with the given ID: the mock
pagination rule "serve the entries after the last-seen ID" (spec §8). -/
def afterUsers (users : List User) (afterID : String) : List User :=
  match users with
  | [] => []
  | u :: rest => if u.id = afterID then rest else afterUsers rest afterID

/-- Page source of the mock: the whole list for the empty cursor, otherwise
the entries after the cursor ID. -/
def serveFrom (all : List User) (afterID : String) : List User :=
  if afterID = "" then all else afterUsers all afterID

/-- Mock session whose reactor endpoint paginates a fixed list by
"after last-seen ID", as in the spec's pagination scenario (§8). -/
def mockReactorSession (all : List User) : Session where
  guildChannels := fun _ => .error "unused"
  channelMessages := fun _ _ _ _ _ => .error "unused"
  messageReactions := fun _ _ _ limit _ afterID => .ok ((serveFrom all afterID).take limit)
  messageReactionRemove := fun _ _ _ _ => none
  messageReactionAdd := fun _ _ _ => none

/-- User number `i` of the 250-entry reactor list. -/
def mkU (i : Nat) : User := User.mk ("u" ++ Nat.repr i)

/-- Reactor list of exactly 250 entries, served by the mock as pages of 100,
100 and 50. -/
def users250 : List User := (List.range 250).map mkU

/-- Bot state for the pagination scenario: six target users spread over the
three pages. -/
def b250 : BotState where
  config :=
    { GuildID := "g"
      ChannelName := "jollyposting"
      TargetUserIDSet := ["u7", "u42", "u99", "u100", "u150", "u249"]
      JollySkullID := "jollyskull:1" }
  channelID := "chan"
  ready := true

/-- Message of 2025-06-01 (after the cutoff) for the backfill scenario. -/
def msgJun : Message where
  id := "m1"
  channelID := "chan"
  author := none
  content := ""
  timestamp := 20250601
  reactions := []

/-- Message of 2024-12-01 (before the cutoff) for the backfill scenario. -/
def msgDec : Message where
  id := "m2"
  channelID := "chan"
  author := none
  content := ""
  timestamp := 20241201
  reactions := []

/-- Session for the backfill scenario: one page holding the 2025-06-01 and
2024-12-01 messages in that order. -/
def histSession : Session where
  guildChannels := fun _ => .error "unused"
  channelMessages := fun _ _ _ _ _ => .ok [msgJun, msgDec]
  messageReactions := fun _ _ _ _ _ _ => .ok []
  messageReactionRemove := fun _ _ _ _ => none
  messageReactionAdd := fun _ _ _ => none

/-- Ready bot state for the backfill scenario. -/
def bHist : BotState where
  config :=
    { GuildID := "g"
      ChannelName := "jollyposting"
      TargetUserIDSet := ["t1"]
      JollySkullID := "jollyskull:1" }
  channelID := "chan"
  ready := true

/-- Session whose mutation calls all succeed, for witnesses. -/
def sOk : Session where
  guildChannels := fun _ => .error "unused"
  channelMessages := fun _ _ _ _ _ => .error "unused"
  messageReactions := fun _ _ _ _ _ _ => .ok []
  messageReactionRemove := fun _ _ _ _ => none
  messageReactionAdd := fun _ _ _ => none

/-- Session whose reaction removal fails, for witnesses. -/
def sRemFail : Session where
  guildChannels := fun _ => .error "unused"
  channelMessages := fun _ _ _ _ _ => .error "unused"
  messageReactions := fun _ _ _ _ _ _ => .error "boom"
  messageReactionRemove := fun _ _ _ _ => some "boom"
  messageReactionAdd := fun _ _ _ => none

/-- Session whose removal succeeds and addition fails, for witnesses. -/
def sAddFail : Session where
  guildChannels := fun _ => .error "unused"
  channelMessages := fun _ _ _ _ _ => .error "unused"
  messageReactions := fun _ _ _ _ _ _ => .ok []
  messageReactionRemove := fun _ _ _ _ => none
  messageReactionAdd := fun _ _ _ => some "boom"

/-- C1: for every message ID, user ID and emoji, `ReplaceReaction` first
issues exactly one remove of that (message, emoji, user) reaction; if the
remove fails it returns false and issues no add call; if the remove succeeds
it issues exactly one add of the substitute reaction, returning false if that
add fails; and it returns true iff both the remove and the add succeed. -/
theorem replaceReaction_spec (b : BotState) (s : Session) (messageID userID : String)
    (emoji : Emoji) :
    ((ReplaceReaction b s messageID userID emoji).2.head?
        = some (APICall.removeReaction b.channelID messageID (GetEmojiAPIString emoji) userID)
      ∧ (ReplaceReaction b s messageID userID emoji).2.count
          (APICall.removeReaction b.channelID messageID (GetEmojiAPIString emoji) userID) = 1)
    ∧ (∀ e, s.messageReactionRemove b.channelID messageID (GetEmojiAPIString emoji) userID
          = some e →
        ReplaceReaction b s messageID userID emoji
          = (false, [APICall.removeReaction b.channelID messageID
              (GetEmojiAPIString emoji) userID]))
    ∧ (s.messageReactionRemove b.channelID messageID (GetEmojiAPIString emoji) userID = none →
        (ReplaceReaction b s messageID userID emoji).2
          = [APICall.removeReaction b.channelID messageID (GetEmojiAPIString emoji) userID,
             APICall.addReaction b.channelID messageID b.config.JollySkullID]
        ∧ ((ReplaceReaction b s messageID userID emoji).1 = true
            ↔ s.messageReactionAdd b.channelID messageID b.config.JollySkullID = none))
    ∧ ((ReplaceReaction b s messageID userID emoji).1 = true
        ↔ (s.messageReactionRemove b.channelID messageID (GetEmojiAPIString emoji) userID = none
            ∧ s.messageReactionAdd b.channelID messageID b.config.JollySkullID = none)) := by
  cases hr : s.messageReactionRemove b.channelID messageID (GetEmojiAPIString emoji) userID with
  | some e => simp [ReplaceReaction, hr]
  | none =>
    cases ha : s.messageReactionAdd b.channelID messageID b.config.JollySkullID with
    | some e => simp [ReplaceReaction, hr, ha]
    | none => simp [ReplaceReaction, hr, ha]

/-- Witness for C1: the remove-fails and remove-succeeds branches of
`replaceReaction_spec` at concrete inputs. -/
theorem replaceReaction_spec_witness :
    (ReplaceReaction bHist sRemFail "m" "u" (Emoji.mk "💀" "")
        = (false, [APICall.removeReaction "chan" "m" "💀" "u"]))
    ∧ ((ReplaceReaction bHist sOk "m" "u" (Emoji.mk "💀" "")).2
        = [APICall.removeReaction "chan" "m" "💀" "u",
           APICall.addReaction "chan" "m" "jollyskull:1"]) :=
  ⟨(replaceReaction_spec bHist sRemFail "m" "u" (Emoji.mk "💀" "")).2.1 "boom" rfl,
   ((replaceReaction_spec bHist sOk "m" "u" (Emoji.mk "💀" "")).2.2.1 rfl).1⟩

/-- Decidability of the spec-side case-insensitive containment. -/
instance (s : String) (pat : List Char) : Decidable (containsCI s pat) :=
  inferInstanceAs (Decidable (_ = true))

/-- C2: `IsSkullEmoji` is true iff the descriptor is one of the fixed unicode
skull glyphs, or its name contains `skull` case-insensitively without also
containing `jollyskull` case-insensitively; in particular any name containing
the substitute emoji's name `jollyskull` (so the substitute's own name) is
always rejected. -/
theorem isSkullEmoji_spec (e : Emoji) :
    (IsSkullEmoji e = true ↔
      ((e.name = "💀" ∨ e.name = "☠️" ∨ e.name = "☠")
        ∨ (containsCI e.name skullPat ∧ ¬ containsCI e.name jollyPat)))
    ∧ (containsCI e.name jollyPat → IsSkullEmoji e = false) := by
  constructor
  · unfold IsSkullEmoji containsCI
    by_cases h1 : e.name = "💀" <;> by_cases h2 : e.name = "☠️" <;> by_cases h3 : e.name = "☠" <;>
      by_cases h4 : containsSub (toLowerL e.name.data) skullPat = true <;>
      by_cases h5 : containsSub (toLowerL e.name.data) jollyPat = true <;>
      simp_all
  · intro h
    have h' : containsSub (toLowerL e.name.data) jollyPat = true := h
    have h1 : e.name ≠ "💀" := by
      intro hn; rw [hn] at h'; exact absurd h' (by decide)
    have h2 : e.name ≠ "☠️" := by
      intro hn; rw [hn] at h'; exact absurd h' (by decide)
    have h3 : e.name ≠ "☠" := by
      intro hn; rw [hn] at h'; exact absurd h' (by decide)
    simp [IsSkullEmoji, h1, h2, h3, h']

/-- Witness for C2: the jollyskull rejection at the substitute's own name. -/
theorem isSkullEmoji_spec_witness :
    IsSkullEmoji (Emoji.mk "JOLLYskull" "333") = false :=
  (isSkullEmoji_spec (Emoji.mk "JOLLYskull" "333")).2 (by decide)

/-- C6: `ShouldProcessReaction` is true iff the bot is ready, the event is in
the resolved channel, the acting user passes the membership test and the
emoji passes `IsSkullEmoji`; `ShouldDeleteMessage` is true iff the bot is
ready, the message's channel matches, the author is non-null and passes the
membership test and the content passes the skull-only classification; in
every other case both predicates are false. -/
theorem eventFilters_spec (b : BotState) (r : ReactionAddEvent) (m : Message) :
    (ShouldProcessReaction b r = true ↔
      (b.ready = true ∧ r.channelID = b.channelID ∧ IsTargetUser b r.userID = true
        ∧ IsSkullEmoji r.emoji = true))
    ∧ (ShouldDeleteMessage b m = true ↔
      (b.ready = true ∧ m.channelID = b.channelID
        ∧ ∃ a, m.author = some a ∧ IsTargetUser b a.id = true
            ∧ IsSkullOnlyMessage m.content = true)) := by
  constructor
  · unfold ShouldProcessReaction
    by_cases h1 : b.ready <;> by_cases h2 : r.channelID = b.channelID <;>
      by_cases h3 : IsTargetUser b r.userID <;> by_cases h4 : IsSkullEmoji r.emoji <;>
      simp_all
  · unfold ShouldDeleteMessage
    cases hauthor : m.author with
    | none =>
      by_cases h1 : b.ready <;> by_cases h2 : m.channelID = b.channelID <;> simp_all
    | some a =>
      by_cases h1 : b.ready <;> by_cases h2 : m.channelID = b.channelID <;>
        by_cases h3 : IsTargetUser b a.id <;> simp_all

/-- Every pagination call issued by the reactor loop carries the emoji API
string the loop was given, with limit 100 and empty before-cursor. -/
theorem findTargetUsersLoop_calls (b : BotState) (s : Session) (mid estr : String) :
    ∀ (fuel : Nat) (afterID : String) (found : List String),
      ∀ call ∈ (findTargetUsersLoop b s mid estr fuel afterID found).2,
        ∃ a, call = APICall.reactionsPage b.channelID mid estr 100 "" a := by
  intro fuel
  induction fuel with
  | zero => intro afterID found call hc; simp [findTargetUsersLoop] at hc
  | succ fuel ih =>
    intro afterID found call hc
    rw [findTargetUsersLoop] at hc
    cases hq : s.messageReactions b.channelID mid estr 100 "" afterID with
    | error e =>
      rw [hq] at hc
      simp at hc
      exact ⟨afterID, hc⟩
    | ok users =>
      rw [hq] at hc
      by_cases hemp : users.isEmpty
      · simp [hemp] at hc
        exact ⟨afterID, hc⟩
      · by_cases hlen : users.length < 100
        · simp [hemp, hlen] at hc
          exact ⟨afterID, hc⟩
        · simp [hemp, hlen] at hc
          rcases hc with hc | hc
          · exact ⟨afterID, hc⟩
          · exact ih (lastUserID users) _ call hc

/-- C9: for a descriptor with non-empty id the emoji API string is name,
colon, id; with empty id it is the name unchanged; and exactly this encoding
of the reacted emoji is the string carried by the removal call of
`ReplaceReaction` and by every reactor-pagination call of
`findTargetUsersWithReaction`. -/
theorem emojiAPIString_spec (e : Emoji) (b : BotState) (s : Session)
    (messageID userID : String) (fuel : Nat) :
    (e.id ≠ "" → GetEmojiAPIString e = e.name ++ ":" ++ e.id)
    ∧ (e.id = "" → GetEmojiAPIString e = e.name)
    ∧ ((ReplaceReaction b s messageID userID e).2.head?
        = some (APICall.removeReaction b.channelID messageID (GetEmojiAPIString e) userID))
    ∧ (∀ call ∈ (findTargetUsersWithReaction b s fuel messageID e).2,
        ∃ a, call = APICall.reactionsPage b.channelID messageID (GetEmojiAPIString e) 100 "" a) := by
  refine ⟨fun h => by simp [GetEmojiAPIString, h], fun h => by simp [GetEmojiAPIString, h], ?_, ?_⟩
  · cases hr : s.messageReactionRemove b.channelID messageID (GetEmojiAPIString e) userID with
    | some e2 => simp [ReplaceReaction, hr]
    | none =>
      cases ha : s.messageReactionAdd b.channelID messageID b.config.JollySkullID with
      | some e2 => simp [ReplaceReaction, hr, ha]
      | none => simp [ReplaceReaction, hr, ha]
  · exact findTargetUsersLoop_calls b s messageID (GetEmojiAPIString e) fuel "" []

/-- Witness for C9: both encodings at concrete descriptors. -/
theorem emojiAPIString_spec_witness :
    GetEmojiAPIString (Emoji.mk "skull" "123") = "skull:123"
    ∧ GetEmojiAPIString (Emoji.mk "💀" "") = "💀" :=
  ⟨(emojiAPIString_spec (Emoji.mk "skull" "123") bHist sOk "m" "u" 0).1 (by decide),
   (emojiAPIString_spec (Emoji.mk "💀" "") bHist sOk "m" "u" 0).2.1 rfl⟩

/-- True exactly on `addReaction` calls. -/
def isAddCall : APICall → Bool
  | .addReaction _ _ _ => true
  | _ => false

/-- C10: after a successful removal the add call passes the configured
substitute identifier `config.JollySkullID` verbatim as the emoji API string
(the name-colon-id encoding is never applied to it: the string equals the
configured field for every configuration and emoji), and the add call carries
no user ID (the `addReaction` record has no user field, as
`Session.MessageReactionAdd` takes none), so successful replacements for two
different users on the same message issue identical add calls. -/
theorem substituteAdd_spec (b : BotState) (s : Session) (messageID : String) (e : Emoji)
    (u1 u2 : String) :
    (∀ call ∈ (ReplaceReaction b s messageID u1 e).2, isAddCall call = true →
        call = APICall.addReaction b.channelID messageID b.config.JollySkullID)
    ∧ (s.messageReactionRemove b.channelID messageID (GetEmojiAPIString e) u1 = none →
        (ReplaceReaction b s messageID u1 e).2.filter isAddCall
          = [APICall.addReaction b.channelID messageID b.config.JollySkullID])
    ∧ (s.messageReactionRemove b.channelID messageID (GetEmojiAPIString e) u1 = none →
       s.messageReactionRemove b.channelID messageID (GetEmojiAPIString e) u2 = none →
        (ReplaceReaction b s messageID u1 e).2.filter isAddCall
          = (ReplaceReaction b s messageID u2 e).2.filter isAddCall) := by
  have key : ∀ u, s.messageReactionRemove b.channelID messageID (GetEmojiAPIString e) u = none →
      (ReplaceReaction b s messageID u e).2.filter isAddCall
        = [APICall.addReaction b.channelID messageID b.config.JollySkullID] := by
    intro u hr
    cases ha : s.messageReactionAdd b.channelID messageID b.config.JollySkullID with
    | some e2 => simp [ReplaceReaction, hr, ha, isAddCall]
    | none => simp [ReplaceReaction, hr, ha, isAddCall]
  refine ⟨?_, key u1, fun h1 h2 => (key u1 h1).trans (key u2 h2).symm⟩
  intro call hc hadd
  cases hr : s.messageReactionRemove b.channelID messageID (GetEmojiAPIString e) u1 with
  | some e2 =>
    simp [ReplaceReaction, hr] at hc
    rw [hc] at hadd
    exact absurd hadd (by simp [isAddCall])
  | none =>
    cases ha : s.messageReactionAdd b.channelID messageID b.config.JollySkullID with
    | some e2 =>
      simp [ReplaceReaction, hr, ha] at hc
      rcases hc with hc | hc
      · rw [hc] at hadd; exact absurd hadd (by simp [isAddCall])
      · exact hc
    | none =>
      simp [ReplaceReaction, hr, ha] at hc
      rcases hc with hc | hc
      · rw [hc] at hadd; exact absurd hadd (by simp [isAddCall])
      · exact hc

/-- Witness for C10: two successful replacements for different users issue
the same single add call. -/
theorem substituteAdd_spec_witness :
    (ReplaceReaction bHist sOk "m" "u1" (Emoji.mk "💀" "")).2.filter isAddCall
      = (ReplaceReaction bHist sOk "m" "u2" (Emoji.mk "💀" "")).2.filter isAddCall :=
  (substituteAdd_spec bHist sOk "m" (Emoji.mk "💀" "") "u1" "u2").2.2 rfl rfl

/-- `FindChannelByName` returns the ID of the first listed channel whose name
matches exactly and whose type is guild text, or the empty string. -/
theorem findChannelByName_eq_find (channels : List Channel) (name : String) :
    FindChannelByName channels name
      = ((channels.find? (isWantedChannel name)).map Channel.id).getD "" := by
  induction channels with
  | nil => rfl
  | cons ch rest ih =>
    by_cases h : ch.name = name ∧ ch.channelType = ChannelTypeGuildText
    · simp [FindChannelByName, isWantedChannel, h]
    · rw [FindChannelByName]
      simp only [h, if_false]
      rw [ih, List.find?_cons]
      have : isWantedChannel name ch = false := by
        simp [isWantedChannel]
        intro h1 h2
        exact h ⟨h1, h2⟩
      simp [this]

/-- Fixture channel list for the C7 witness: a same-named voice channel
listed before the matching text channel. -/
def chansW : List Channel :=
  [Channel.mk "v1" "jollyposting" 2, Channel.mk "t1" "jollyposting" 0, Channel.mk "t2" "other" 0]

/-- Fixture session serving `chansW`, for the C7 witness. -/
def sChans : Session where
  guildChannels := fun _ => .ok chansW
  channelMessages := fun _ _ _ _ _ => .error "unused"
  messageReactions := fun _ _ _ _ _ _ => .error "unused"
  messageReactionRemove := fun _ _ _ _ => some "unused"
  messageReactionAdd := fun _ _ _ => some "unused"

/-- Unready bot state before initialization, for the C7 witness. -/
def bInit : BotState where
  config :=
    { GuildID := "g"
      ChannelName := "jollyposting"
      TargetUserIDSet := ["t1"]
      JollySkullID := "jollyskull:1" }
  channelID := ""
  ready := false

/-- C7: channel resolution selects the first listed channel whose name
matches exactly and whose type is guild text (same-named channels of other
types are passed over); when the channel list cannot be fetched or no channel
matches, `Initialize` reports the error and leaves the state - in particular
`ready` - unchanged; `channelID` is published and `ready` flipped to true
only on success. -/
theorem channelResolution_spec (b : BotState) (s : Session) (channels : List Channel)
    (name : String) :
    (FindChannelByName channels name
        = ((channels.find? (isWantedChannel name)).map Channel.id).getD "")
    ∧ (∀ e, s.guildChannels b.config.GuildID = .error e →
        Initialize b s = (b, some (.fetchChannelsFailed e)))
    ∧ (∀ chans, s.guildChannels b.config.GuildID = .ok chans →
        chans.find? (isWantedChannel b.config.ChannelName) = none →
        Initialize b s = (b, some (.channelNotFound b.config.ChannelName)))
    ∧ (∀ chans ch, s.guildChannels b.config.GuildID = .ok chans →
        chans.find? (isWantedChannel b.config.ChannelName) = some ch → ch.id ≠ "" →
        Initialize b s = ({ b with channelID := ch.id, ready := true }, none))
    ∧ (∀ st err, Initialize b s = (st, some err) → st = b ∧ st.ready = b.ready) := by
  refine ⟨findChannelByName_eq_find channels name, ?_, ?_, ?_, ?_⟩
  · intro e he
    simp [Initialize, he]
  · intro chans hok hnone
    simp [Initialize, hok, findChannelByName_eq_find, hnone]
  · intro chans ch hok hfind hid
    simp [Initialize, hok, findChannelByName_eq_find, hfind, hid]
  · intro st err hinit
    cases he : s.guildChannels b.config.GuildID with
    | error e =>
      simp [Initialize, he] at hinit
      simp [hinit.1.symm]
    | ok chans =>
      by_cases hz : FindChannelByName chans b.config.ChannelName = ""
      · simp [Initialize, he, hz] at hinit
        simp [hinit.1.symm]
      · simp [Initialize, he, hz] at hinit

/-- Witness for C7: resolution on a list with a same-named voice channel
first picks the text channel, and a failed fetch leaves the state
unchanged. -/
theorem channelResolution_spec_witness :
    Initialize bInit sChans = ({ bInit with channelID := "t1", ready := true }, none)
    ∧ Initialize bInit sRemFail = (bInit, some (.fetchChannelsFailed "unused")) :=
  ⟨(channelResolution_spec bInit sChans [] "x").2.2.2.1 chansW (Channel.mk "t1" "jollyposting" 0)
      rfl (by decide) (by decide),
   (channelResolution_spec bInit sRemFail [] "x").2.1 "unused" rfl⟩

/-- Sequentially removing the space, newline and tab characters equals the
spec's one-pass whitespace filter. -/
theorem ws_strip (l : List Char) :
    removeChar '\t' (removeChar '\n' (removeChar ' ' l))
      = l.filter (fun ch => decide (ch ≠ ' ' ∧ ch ≠ '\n' ∧ ch ≠ '\t')) := by
  induction l with
  | nil => rfl
  | cons c rest ih =>
    by_cases h1 : c = ' ' <;> by_cases h2 : c = '\n' <;> by_cases h3 : c = '\t' <;>
      simp_all [removeChar]

/-- A string built from a rune list is the empty string iff the list is
empty, at the level of `decide`. -/
theorem mk_eq_empty_decide (l : List Char) : decide (String.mk l = "") = l.isEmpty := by
  cases l with
  | nil => rfl
  | cons c t =>
    simp only [List.isEmpty_cons]
    apply decide_eq_false
    intro h
    have := congrArg String.data h
    simp at this

/-- C3: `IsSkullOnlyMessage` agrees everywhere with the reference
classification `SpecIsSkullOnlyContent`, and takes the spec's table of
values on the seven listed inputs. -/
theorem isSkullOnlyContent_spec :
    (∀ s, IsSkullOnlyMessage s = SpecIsSkullOnlyContent s)
    ∧ IsSkullOnlyMessage "💀" = true
    ∧ IsSkullOnlyMessage "💀 💀 💀" = true
    ∧ IsSkullOnlyMessage "💀 lol" = false
    ∧ IsSkullOnlyMessage "" = false
    ∧ IsSkullOnlyMessage "   " = false
    ∧ IsSkullOnlyMessage "<:jollyskull:1>" = false
    ∧ IsSkullOnlyMessage "<:deadskull:1>💀" = true := by
  refine ⟨?_, by decide, by decide, by decide, by decide, by decide, by decide, by decide⟩
  intro s
  unfold IsSkullOnlyMessage SpecIsSkullOnlyContent filterCustomEmojis
  dsimp only
  rw [ws_strip, mk_eq_empty_decide]

/-- The after-cursor view of a list is one of its suffixes. -/
theorem afterUsers_suffix (all : List User) (a : String) : afterUsers all a <:+ all := by
  induction all with
  | nil => simp [afterUsers]
  | cons u rest ih =>
    rw [afterUsers]
    by_cases h : u.id = a
    · simp only [h, if_true]
      exact List.suffix_cons u rest
    · simp only [h, if_false]
      exact ih.trans (List.suffix_cons u rest)

/-- Positioning after a user whose ID does not occur earlier returns exactly
the entries after that user. -/
theorem afterUsers_append (xs ys : List User) (u : User)
    (h : u.id ∉ xs.map User.id) : afterUsers (xs ++ u :: ys) u.id = ys := by
  induction xs with
  | nil => simp [afterUsers]
  | cons x rest ih =>
    simp only [List.map_cons, List.mem_cons, not_or] at h
    have hx : ¬ x.id = u.id := fun e => h.1 e.symm
    simp only [List.cons_append, afterUsers, hx, if_false]
    exact ih h.2

/-- Main pagination invariant: over the after-cursor mock, a loop started at
a cursor whose page view is the suffix `rem` of the reactor list, with enough
fuel, returns the accumulator followed by the target users of `rem`, in
order. -/
theorem findTargetUsersLoop_mock (b : BotState) (mid estr : String) (all : List User)
    (hnd : (all.map User.id).Nodup) (hne : "" ∉ all.map User.id) :
    ∀ (fuel : Nat) (cursor : String) (rem : List User) (found : List String),
      serveFrom all cursor = rem → rem <:+ all → rem.length + 1 ≤ fuel →
      (findTargetUsersLoop b (mockReactorSession all) mid estr fuel cursor found).1
        = found ++ (rem.filter (fun u => IsTargetUser b u.id)).map User.id := by
  intro fuel
  induction fuel with
  | zero => intro cursor rem found _ _ hf; omega
  | succ fuel ih =>
    intro cursor rem found hserve hsuf hfuel
    have hq : (mockReactorSession all).messageReactions b.channelID mid estr 100 "" cursor
        = .ok (rem.take 100) := by
      simp [mockReactorSession, hserve]
    by_cases hrem : rem = []
    · subst hrem
      simp [findTargetUsersLoop, hq]
    · have htake_ne : ¬ rem.take 100 = [] := by
        cases rem with
        | nil => exact absurd rfl hrem
        | cons x xs => simp
      by_cases hlen : rem.length < 100
      · have htake : rem.take 100 = rem := List.take_of_length_le (by omega)
        simp only [findTargetUsersLoop, hq, htake]
        rw [if_neg (by simp [hrem]), if_pos (by simpa using hlen)]
      · have hge : 100 ≤ rem.length := by omega
        have hlen100 : (rem.take 100).length = 100 := by
          rw [List.length_take]
          omega
        have hlast : lastUserID (rem.take 100) = ((rem.take 100).getLast htake_ne).id := by
          unfold lastUserID
          rw [List.getLast?_eq_getLast_of_ne_nil htake_ne]
        set u := (rem.take 100).getLast htake_ne with hu
        have humem : u ∈ all := by
          have h1 : u ∈ rem.take 100 := List.getLast_mem htake_ne
          have h2 : u ∈ rem := (List.take_sublist 100 rem).mem h1
          exact hsuf.mem h2
        have huid : ¬ u.id = "" := by
          intro h0
          exact hne (h0 ▸ List.mem_map_of_mem User.id humem)
        obtain ⟨pfx, hp⟩ := hsuf
        have hall : (pfx ++ (rem.take 100).dropLast) ++ u :: rem.drop 100 = all := by
          rw [List.append_assoc]
          have h1 : (rem.take 100).dropLast ++ u :: rem.drop 100 = rem := by
            have h2 : (rem.take 100).dropLast ++ [u] = rem.take 100 :=
              List.dropLast_append_getLast htake_ne
            calc (rem.take 100).dropLast ++ u :: rem.drop 100
                = ((rem.take 100).dropLast ++ [u]) ++ rem.drop 100 := by
                  rw [List.append_assoc]; rfl
              _ = rem.take 100 ++ rem.drop 100 := by rw [h2]
              _ = rem := List.take_append_drop 100 rem
          rw [h1, hp]
        have hnotmem : u.id ∉ (pfx ++ (rem.take 100).dropLast).map User.id := by
          have hnd2 := hnd
          rw [← hall, List.map_append, List.map_cons] at hnd2
          rcases List.nodup_append.mp hnd2 with ⟨_, _, hdisj⟩
          intro hmem
          exact hdisj hmem (List.mem_cons_self _ _)
        have hserve2 : serveFrom all (lastUserID (rem.take 100)) = rem.drop 100 := by
          rw [hlast]
          unfold serveFrom
          rw [if_neg huid, ← hall]
          exact afterUsers_append _ _ _ hnotmem
        have hsuf2 : rem.drop 100 <:+ all := (List.drop_suffix 100 rem).trans ⟨pfx, hp⟩
        have hfuel2 : (rem.drop 100).length + 1 ≤ fuel := by
          rw [List.length_drop]
          omega
        simp only [findTargetUsersLoop, hq]
        rw [if_neg (by simpa using htake_ne), if_neg (by omega)]
        rw [ih _ _ _ hserve2 hsuf2 hfuel2]
        conv_rhs => rw [← List.take_append_drop 100 rem]
        rw [List.filter_append, List.map_append, List.append_assoc]

/-- C4: the reactor-pagination loop fetches pages of 100 with an
after-cursor; a fetch error at any page returns exactly the accumulated
results of the prior pages (so the empty list when the first page fails); an
empty page or a page of fewer than 100 entries ends the pagination, keeping
the page's target users; a full page continues after its last user ID; over
the after-cursor mock the loop returns exactly the paged-in user IDs passing
the membership test, in page order; and the 250-entry reactor list served as
pages of 100, 100 and 50 yields the union of the target users of all three
pages. -/
theorem findTargetUsers_spec :
    (∀ (b : BotState) (s : Session) (messageID : String) (e : Emoji) (fuel : Nat)
        (afterID : String) (found : List String) (err : String),
        s.messageReactions b.channelID messageID (GetEmojiAPIString e) 100 "" afterID
          = .error err →
        findTargetUsersLoop b s messageID (GetEmojiAPIString e) (fuel + 1) afterID found
          = (found, [APICall.reactionsPage b.channelID messageID (GetEmojiAPIString e)
              100 "" afterID]))
    ∧ (∀ (b : BotState) (s : Session) (messageID : String) (e : Emoji) (fuel : Nat)
        (err : String),
        s.messageReactions b.channelID messageID (GetEmojiAPIString e) 100 "" "" = .error err →
        (findTargetUsersWithReaction b s (fuel + 1) messageID e).1 = [])
    ∧ (∀ (b : BotState) (s : Session) (messageID estr : String) (fuel : Nat)
        (afterID : String) (found : List String),
        s.messageReactions b.channelID messageID estr 100 "" afterID = .ok [] →
        findTargetUsersLoop b s messageID estr (fuel + 1) afterID found
          = (found, [APICall.reactionsPage b.channelID messageID estr 100 "" afterID]))
    ∧ (∀ (b : BotState) (s : Session) (messageID estr : String) (fuel : Nat)
        (afterID : String) (found : List String) (users : List User),
        s.messageReactions b.channelID messageID estr 100 "" afterID = .ok users →
        users ≠ [] → users.length < 100 →
        findTargetUsersLoop b s messageID estr (fuel + 1) afterID found
          = (found ++ (users.filter (fun u => IsTargetUser b u.id)).map User.id,
             [APICall.reactionsPage b.channelID messageID estr 100 "" afterID]))
    ∧ (∀ (b : BotState) (s : Session) (messageID estr : String) (fuel : Nat)
        (afterID : String) (found : List String) (users : List User),
        s.messageReactions b.channelID messageID estr 100 "" afterID = .ok users →
        100 ≤ users.length →
        findTargetUsersLoop b s messageID estr (fuel + 1) afterID found
          = ((findTargetUsersLoop b s messageID estr fuel (lastUserID users)
                (found ++ (users.filter (fun u => IsTargetUser b u.id)).map User.id)).1,
             APICall.reactionsPage b.channelID messageID estr 100 "" afterID
               :: (findTargetUsersLoop b s messageID estr fuel (lastUserID users)
                (found ++ (users.filter (fun u => IsTargetUser b u.id)).map User.id)).2))
    ∧ (∀ (b : BotState) (mid : String) (e : Emoji) (all : List User) (fuel : Nat),
        (all.map User.id).Nodup → "" ∉ all.map User.id → all.length + 1 ≤ fuel →
        (findTargetUsersWithReaction b (mockReactorSession all) fuel mid e).1
          = (all.filter (fun u => IsTargetUser b u.id)).map User.id)
    ∧ ((findTargetUsersWithReaction b250 (mockReactorSession users250) 10 "mid"
          (Emoji.mk "💀" "")).1
        = ["u7", "u42", "u99", "u100", "u150", "u249"])
    ∧ ((findTargetUsersWithReaction b250 (mockReactorSession users250) 10 "mid"
          (Emoji.mk "💀" "")).2
        = [APICall.reactionsPage "chan" "mid" "💀" 100 "" "",
           APICall.reactionsPage "chan" "mid" "💀" 100 "" "u99",
           APICall.reactionsPage "chan" "mid" "💀" 100 "" "u199"]) := by
  refine ⟨?_, ?_, ?_, ?_, ?_, ?_, by decide, by decide⟩
  · intro b s messageID e fuel afterID found err herr
    simp [findTargetUsersLoop, herr]
  · intro b s messageID e fuel err herr
    unfold findTargetUsersWithReaction
    simp [findTargetUsersLoop, herr]
  · intro b s messageID estr fuel afterID found hok
    simp [findTargetUsersLoop, hok]
  · intro b s messageID estr fuel afterID found users hok hne hlt
    simp only [findTargetUsersLoop, hok]
    rw [if_neg (by simpa using hne), if_pos (by simpa using hlt)]
  · intro b s messageID estr fuel afterID found users hok hge
    have hne : users ≠ [] := by
      intro h0
      rw [h0] at hge
      simp at hge
    simp only [findTargetUsersLoop, hok]
    rw [if_neg (by simpa using hne), if_neg (by omega)]
  · intro b mid e all fuel hnd hne hfuel
    unfold findTargetUsersWithReaction
    rw [findTargetUsersLoop_mock b mid (GetEmojiAPIString e) all hnd hne fuel ""
      all [] (by simp [serveFrom]) (List.suffix_refl all) hfuel]
    simp

/-- Witness for C4: a first-page fetch error yields the empty list, and the
mock pagination over a concrete two-user list yields its single target
user. -/
theorem findTargetUsers_spec_witness :
    (findTargetUsersWithReaction bHist sRemFail 1 "m" (Emoji.mk "💀" "")).1 = []
    ∧ (findTargetUsersWithReaction bHist
        (mockReactorSession [User.mk "a", User.mk "t1"]) 3 "m" (Emoji.mk "💀" "")).1
      = ["t1"] :=
  ⟨findTargetUsers_spec.2.1 bHist sRemFail "m" (Emoji.mk "💀" "") 0 "boom" rfl,
   findTargetUsers_spec.2.2.2.2.2.1 bHist "m" (Emoji.mk "💀" "")
     [User.mk "a", User.mk "t1"] 3 (by decide) (by decide) (by decide)⟩

/-- Every message event emitted by the page loop has a timestamp at or after
the cutoff. -/
theorem processPage_mem (b : BotState) (s : Session) (rfuel cutoff : Nat) :
    ∀ (msgs : List Message) (p r : Nat) (id : String) (ts : Nat),
      BEvent.processMsg id ts ∈ (processPage b s rfuel cutoff msgs p r).2 →
      cutoff ≤ ts := by
  intro msgs
  induction msgs with
  | nil => intro p r id ts h; simp [processPage] at h
  | cons msg rest ih =>
    intro p r id ts h
    rw [processPage] at h
    by_cases hc : msg.timestamp < cutoff
    · rw [if_pos hc] at h
      simp at h
    · rw [if_neg hc] at h
      simp only [List.mem_cons] at h
      rcases h with h | h
      · cases h
        omega
      · exact ih _ _ id ts h

/-- Every message event emitted by the backfill loop has a timestamp at or
after the cutoff. -/
theorem backfillLoop_mem (b : BotState) (s : Session) (cancelled : Nat → Bool)
    (rfuel cutoff : Nat) :
    ∀ (fuel iter : Nat) (beforeID : String) (p r : Nat) (id : String) (ts : Nat),
      BEvent.processMsg id ts
          ∈ (backfillLoop b s cancelled rfuel cutoff fuel iter beforeID p r).2 →
      cutoff ≤ ts := by
  intro fuel
  induction fuel with
  | zero => intro iter beforeID p r id ts h; simp [backfillLoop] at h
  | succ fuel ih =>
    intro iter beforeID p r id ts h
    rw [backfillLoop] at h
    by_cases hcan : cancelled iter
    · rw [if_pos hcan] at h
      simp at h
    · rw [if_neg hcan] at h
      cases hq : s.channelMessages b.channelID 100 beforeID "" "" with
      | error e =>
        rw [hq] at h
        simp at h
      | ok messages =>
        rw [hq] at h
        dsimp only at h
        by_cases hemp : messages.isEmpty
        · rw [if_pos hemp] at h
          simp at h
        · rw [if_neg hemp] at h
          cases hpp : processPage b s rfuel cutoff messages p r with
          | mk outcome pevts =>
            cases outcome with
            | cutoffHit p2 r2 =>
              rw [hpp] at h
              simp only [List.cons_append, List.nil_append, List.mem_cons] at h
              rcases h with h | h | h
              · cases h
              · cases h
              · have := processPage_mem b s rfuel cutoff messages p r id ts
                rw [hpp] at this
                exact this h
            | completed p2 r2 =>
              rw [hpp] at h
              simp only [List.append_assoc, List.cons_append, List.nil_append,
                List.mem_cons, List.mem_append] at h
              rcases h with h | h | h | h
              · cases h
              · cases h
              · have := processPage_mem b s rfuel cutoff messages p r id ts
                rw [hpp] at this
                exact this h
              · exact ih _ _ _ _ id ts h

/-- At the first message older than the cutoff, the page loop stops: exactly
the earlier messages of the page are processed and counted. -/
theorem processPage_stops (b : BotState) (s : Session) (rfuel : Nat) :
    ∀ (pre : List Message) (m : Message) (post : List Message) (p r : Nat),
      (∀ m2 ∈ pre, ¬ m2.timestamp < HistoricalCutoffTS) →
      m.timestamp < HistoricalCutoffTS →
      ∃ r2, processPage b s rfuel HistoricalCutoffTS (pre ++ m :: post) p r
        = (.cutoffHit (p + pre.length) r2,
           pre.map (fun m2 => BEvent.processMsg m2.id m2.timestamp)) := by
  intro pre
  induction pre with
  | nil =>
    intro m post p r _ hm
    exact ⟨r, by simp [processPage, hm]⟩
  | cons m2 rest ih =>
    intro m post p r hpre hm
    have h2 : ¬ m2.timestamp < HistoricalCutoffTS := hpre m2 (List.mem_cons_self _ _)
    obtain ⟨r2, hr2⟩ := ih m post (p + 1) (r + ProcessMessageReactions b s rfuel m2)
      (fun x hx => hpre x (List.mem_cons_of_mem _ hx)) hm
    refine ⟨r2, ?_⟩
    rw [List.cons_append, processPage, if_neg h2]
    dsimp only
    rw [hr2]
    simp only [List.map_cons, List.length_cons]
    have heq : p + 1 + rest.length = p + (rest.length + 1) := by omega
    rw [heq]

/-- C5: the backfill never processes a message older than the fixed cutoff:
no `processMsg` event of any run carries a timestamp before the cutoff; at
the first too-old message of a page, processing stops immediately with
exactly the earlier messages of that page processed; when a page hits the
cutoff the loop terminates at once with reason `cutoffReached` and no further
fetches; and the scenario of one page timestamped 2025-06-01 and 2024-12-01
with the 2025-01-01 cutoff processes exactly the first message, ending with
processed = 1. -/
theorem backfill_cutoff_spec :
    (∀ (b : BotState) (s : Session) (cancelled : Nat → Bool) (rfuel fuel : Nat)
        (id : String) (ts : Nat),
        BEvent.processMsg id ts ∈ (ProcessHistoricalMessages b s cancelled rfuel fuel).2 →
        HistoricalCutoffTS ≤ ts)
    ∧ (∀ (b : BotState) (s : Session) (rfuel : Nat) (pre : List Message) (m : Message)
        (post : List Message) (p r : Nat),
        (∀ m2 ∈ pre, ¬ m2.timestamp < HistoricalCutoffTS) →
        m.timestamp < HistoricalCutoffTS →
        ∃ r2, processPage b s rfuel HistoricalCutoffTS (pre ++ m :: post) p r
          = (.cutoffHit (p + pre.length) r2,
             pre.map (fun m2 => BEvent.processMsg m2.id m2.timestamp)))
    ∧ (∀ (b : BotState) (s : Session) (cancelled : Nat → Bool) (rfuel fuel iter : Nat)
        (beforeID : String) (p r p2 r2 : Nat) (messages : List Message)
        (pevts : List BEvent),
        cancelled iter = false →
        s.channelMessages b.channelID 100 beforeID "" "" = .ok messages →
        messages ≠ [] →
        processPage b s rfuel HistoricalCutoffTS messages p r = (.cutoffHit p2 r2, pevts) →
        backfillLoop b s cancelled rfuel HistoricalCutoffTS (fuel + 1) iter beforeID p r
          = ((.cutoffReached, p2, r2),
             [BEvent.cancelCheck false, BEvent.fetchPage beforeID] ++ pevts))
    ∧ (ProcessHistoricalMessages bHist histSession (fun _ => false) 3 5
        = ((.cutoffReached, 1, 0),
           [.cancelCheck false, .fetchPage "", .processMsg "m1" 20250601])) := by
  refine ⟨?_, processPage_stops, ?_, by decide⟩
  · intro b s cancelled rfuel fuel id ts h
    exact backfillLoop_mem b s cancelled rfuel HistoricalCutoffTS fuel 0 "" 0 0 id ts h
  · intro b s cancelled rfuel fuel iter beforeID p r p2 r2 messages pevts hcan hq hne hpp
    rw [backfillLoop, if_neg (by simp [hcan]), hq]
    dsimp only
    rw [if_neg (by simpa using hne), hpp]

/-- Witness for C5: the stop-at-first-old-message lemma applied to the
concrete scenario page. -/
theorem backfill_cutoff_spec_witness :
    ∃ r2, processPage bHist histSession 3 HistoricalCutoffTS [msgJun, msgDec] 0 0
      = (.cutoffHit 1 r2, [.processMsg "m1" 20250601]) :=
  backfill_cutoff_spec.2.1 bHist histSession 3 [msgJun] msgDec [] 0 0
    (by decide) (by decide)

/-- The backfill loop reads the cancellation signal only at the loop tops: two
signals agreeing on the iterations the fuel allows produce identical runs. -/
theorem backfillLoop_signal (b : BotState) (s : Session) (rfuel cutoff : Nat) :
    ∀ (fuel iter : Nat) (c1 c2 : Nat → Bool) (beforeID : String) (p r : Nat),
      (∀ j, j < fuel → c1 (iter + j) = c2 (iter + j)) →
      backfillLoop b s c1 rfuel cutoff fuel iter beforeID p r
        = backfillLoop b s c2 rfuel cutoff fuel iter beforeID p r := by
  intro fuel
  induction fuel with
  | zero => intro iter c1 c2 beforeID p r _; rfl
  | succ fuel ih =>
    intro iter c1 c2 beforeID p r hagree
    have h0 : c1 iter = c2 iter := by
      have := hagree 0 (by omega)
      simpa using this
    rw [backfillLoop, backfillLoop, h0]
    by_cases hcan : c2 iter
    · rw [if_pos hcan, if_pos hcan]
    · rw [if_neg (by simp [hcan]), if_neg (by simp [hcan])]
      cases hq : s.channelMessages b.channelID 100 beforeID "" "" with
      | error e => rfl
      | ok messages =>
        dsimp only
        by_cases hemp : messages.isEmpty
        · rw [if_pos hemp, if_pos hemp]
        · rw [if_neg hemp, if_neg hemp]
          cases hpp : processPage b s rfuel cutoff messages p r with
          | mk outcome pevts =>
            cases outcome with
            | cutoffHit p2 r2 => rfl
            | completed p2 r2 =>
              dsimp only
              rw [ih (iter + 1) c1 c2 (lastMessageID messages) p2 r2 ?_]
              intro j hj
              have := hagree (j + 1) (by omega)
              have harg : iter + (j + 1) = iter + 1 + j := by omega
              rw [harg] at this
              exact this

/-- C8: the backfill checks its cancellation signal at the top of every
iteration and only there: a signal set at iteration zero terminates the run
with zero fetch events and zero processed messages; a signal observed at any
loop top stops the loop with the counts accumulated so far; and the run
depends on the signal only through the values read at loop tops, so a signal
change taking effect after the current loop top never interrupts the page
being processed. -/
theorem backfill_cancellation_spec :
    (∀ (b : BotState) (s : Session) (cancelled : Nat → Bool) (rfuel fuel : Nat),
        cancelled 0 = true →
        ProcessHistoricalMessages b s cancelled rfuel (fuel + 1)
          = ((.cancelled, 0, 0), [BEvent.cancelCheck true]))
    ∧ (∀ (b : BotState) (s : Session) (cancelled : Nat → Bool) (rfuel fuel iter : Nat)
        (beforeID : String) (p r : Nat),
        cancelled iter = true →
        backfillLoop b s cancelled rfuel HistoricalCutoffTS (fuel + 1) iter beforeID p r
          = ((.cancelled, p, r), [BEvent.cancelCheck true]))
    ∧ (∀ (b : BotState) (s : Session) (c1 c2 : Nat → Bool) (rfuel cutoff fuel iter : Nat)
        (beforeID : String) (p r : Nat),
        (∀ j, j < fuel → c1 (iter + j) = c2 (iter + j)) →
        backfillLoop b s c1 rfuel cutoff fuel iter beforeID p r
          = backfillLoop b s c2 rfuel cutoff fuel iter beforeID p r)
    ∧ (ProcessHistoricalMessages bHist histSession (fun _ => true) 3 5
        = ((.cancelled, 0, 0), [BEvent.cancelCheck true])) := by
  refine ⟨?_, ?_, ?_, by decide⟩
  · intro b s cancelled rfuel fuel hc
    unfold ProcessHistoricalMessages
    rw [backfillLoop, if_pos hc]
  · intro b s cancelled rfuel fuel iter beforeID p r hc
    rw [backfillLoop, if_pos hc]
  · intro b s c1 c2 rfuel cutoff fuel iter beforeID p r hagree
    exact backfillLoop_signal b s rfuel cutoff fuel iter c1 c2 beforeID p r hagree

/-- Witness for C8: a signal set before the loop starts yields zero fetches
and zero processed messages on the concrete scenario. -/
theorem backfill_cancellation_spec_witness :
    ProcessHistoricalMessages bHist histSession (fun _ => true) 7 (4 + 1)
      = ((.cancelled, 0, 0), [BEvent.cancelCheck true]) :=
  backfill_cancellation_spec.1 bHist histSession (fun _ => true) 7 4 rfl
